import Mathlib

/-!
Verification of the per-chat playback queue and playback-state machine of
`src/music_handler.py` (class `MusicHandler`).

The handler keeps five global dictionaries keyed by chat id:
`queues : Dict[int, List[Dict]]`, `current_songs : Dict[int, Dict]`,
`loop_modes : Dict[int, int]`, `playback_speeds : Dict[int, float]`,
`voice_clients : Dict[int, VoiceClient]`.  Every operation under study only
reads and writes the entries of a single `chat_id`, so the embedding models
the slice of all five dictionaries belonging to one chat.  A missing
dictionary key is `none` (for `voice_clients`, `false`); tracks (Python song
dicts) are modelled as natural-number identifiers; `float` playback speeds
are modelled as rationals.

External effects (yt-dlp resolution, FFmpeg, the Discord voice driver) are
modelled by a boolean oracle `startOk : Nat → Bool` saying, for each track,
whether starting its playback succeeds (resolution plus driver start); the
code path reaching `after_playing` exists only for Discord, but `_play_next`
takes the platform as a parameter, so the embedding does too.  A Python
`KeyError` escaping an operation is modelled by an `Option` result being
`none`.
-/

/-- The platform tag `_play_next` and friends branch on
(`music_handler.py`, parameter `platform`). -/
inductive Platform where
  | discord : Platform
  | telegram : Platform
deriving DecidableEq, Repr

/-- The per-chat slice of `MusicHandler`'s five state dictionaries:
`queue = self.queues.get(chat_id)`, `current = self.current_songs.get(chat_id)`,
`loopMode = self.loop_modes.get(chat_id)`,
`speed = self.playback_speeds.get(chat_id)`,
`voiceClient = (chat_id in self.voice_clients)`. -/
structure MusicState where
  queue : Option (List Nat)
  current : Option Nat
  loopMode : Option Nat
  speed : Option ℚ
  voiceClient : Bool
deriving DecidableEq, Repr

/-- Embedding of `MusicHandler._play_next` (`music_handler.py` lines 126-149),
recursing on the queue list. Source:

    if not self.queues.get(chat_id):          # absent or empty queue
        self.current_songs.pop(chat_id, None)
        return
    song = self.queues[chat_id].pop(0)
    self.current_songs[chat_id] = song
    audio_source = await self._get_audio_source(song['url'], chat_id)  # may raise
    if platform == 'discord':
        await self._play_discord(ctx, audio_source, chat_id)           # may raise
    else:
        await self._play_telegram(ctx, song, chat_id)                  # may raise
    # except: log; if self.queues.get(chat_id): await self._play_next(...)

`startOk t` abstracts whether resolving and starting track `t` succeeds.
On Discord success, `_play_discord` line 216 stores
`self.voice_clients[chat_id] = voice_client`; `_play_telegram` never stores a
voice client.  On failure the `except` block retries recursively while the
(already popped) queue is non-empty; note `self.current_songs[chat_id]` keeps
the failed track when the retry stops. -/
def playNextAux (startOk : Nat → Bool) (platform : Platform) :
    List Nat → MusicState → MusicState
  | [], s => { s with current := none }
  | t :: rest, s =>
    let s1 : MusicState := { s with queue := some rest, current := some t }
    if startOk t then
      match platform with
      | Platform.discord => { s1 with voiceClient := true }
      | Platform.telegram => s1
    else
      match rest with
      | [] => s1
      | r :: rs => playNextAux startOk platform (r :: rs) s1

/-- `_play_next` entry point: the initial `if not self.queues.get(chat_id)`
check, then `playNextAux` over the actual queue contents. -/
def playNext (startOk : Nat → Bool) (platform : Platform) (s : MusicState) :
    MusicState :=
  match s.queue with
  | none => { s with current := none }
  | some q => playNextAux startOk platform q s

/-- Embedding of the completion callback `after_playing`
(`music_handler.py` lines 189-209):

    loop_mode = self.loop_modes.get(chat_id, 0)
    if loop_mode == 1:
        asyncio.create_task(self._play_next(chat_id, ctx, 'discord'))
    elif loop_mode > 1:
        if loop_mode == 2:
            if self.current_songs.get(chat_id):
                self.queues[chat_id].append(self.current_songs[chat_id])
        else:
            self.loop_modes[chat_id] -= 1
            if self.current_songs.get(chat_id):
                self.queues[chat_id].insert(0, self.current_songs[chat_id])
        asyncio.create_task(self._play_next(chat_id, ctx, 'discord'))
    else:
        asyncio.create_task(self._play_next(chat_id, ctx, 'discord'))

`self.queues[chat_id]` with no stored queue would raise `KeyError`, modelled
as `none`.  In the `loop_mode > 2` branch `self.loop_modes.get` returned a
stored value, so the decrement rewrites that stored value. -/
def afterPlaying (startOk : Nat → Bool) (platform : Platform)
    (s : MusicState) : Option MusicState :=
  let lm := s.loopMode.getD 0
  if lm = 1 then
    some (playNext startOk platform s)
  else if 1 < lm then
    if lm = 2 then
      match s.current with
      | some c =>
        match s.queue with
        | some q => some (playNext startOk platform { s with queue := some (q ++ [c]) })
        | none => none
      | none => some (playNext startOk platform s)
    else
      let s1 : MusicState := { s with loopMode := some (lm - 1) }
      match s.current with
      | some c =>
        match s.queue with
        | some q => some (playNext startOk platform { s1 with queue := some (c :: q) })
        | none => none
      | none => some (playNext startOk platform s1)
  else
    some (playNext startOk platform s)

/-- Embedding of `MusicHandler.stop_playback` (`music_handler.py` lines
333-351): pops the chat's `queues`, `current_songs` and `loop_modes` entries
(with `None` default, so never raising), and on Discord stops, disconnects
and pops any stored voice client; `playback_speeds` is untouched. -/
def stop_playback (platform : Platform) (s : MusicState) : MusicState :=
  let s1 : MusicState := { s with queue := none, current := none, loopMode := none }
  match platform with
  | Platform.discord => { s1 with voiceClient := false }
  | Platform.telegram => s1

/-- Embedding of `MusicHandler.shuffle_queue` (`music_handler.py` lines
302-310).  `random.shuffle` is nondeterministic, so the permutation it picks
is passed in as the oracle `perm`:

    if chat_id in self.queues and self.queues[chat_id]:
        random.shuffle(self.queues[chat_id])
        return True
    return False -/
def shuffle_queue (perm : List Nat → List Nat) (s : MusicState) :
    Bool × MusicState :=
  match s.queue with
  | some (t :: ts) => (true, { s with queue := some (perm (t :: ts)) })
  | some [] => (false, s)
  | none => (false, s)

/-- Embedding of `MusicHandler.set_playback_speed` (`music_handler.py` lines
408-427):

    if speed < 0.5 or speed > 2.0:
        return False
    self.playback_speeds[chat_id] = speed
    if self.current_songs.get(chat_id):
        current_song = self.current_songs[chat_id]
        self.queues[chat_id].insert(0, current_song)
        ... voice_client.stop()        # no dictionary mutation
    return True

`self.queues[chat_id].insert` with no stored queue raises `KeyError`,
modelled as `none`. -/
def set_playback_speed (speed : ℚ) (s : MusicState) :
    Option (Bool × MusicState) :=
  if speed < 1/2 ∨ 2 < speed then
    some (false, s)
  else
    let s1 : MusicState := { s with speed := some speed }
    match s1.current with
    | none => some (true, s1)
    | some c =>
      match s1.queue with
      | none => none
      | some q => some (true, { s1 with queue := some (c :: q) })

/-- The speed `_play_discord` actually uses
(`music_handler.py` line 185): `self.playback_speeds.get(chat_id, 1.0)`. -/
def effectiveSpeed (s : MusicState) : ℚ := s.speed.getD 1

/-- The `atempo` filter `_play_discord` appends (`music_handler.py` lines
186-187): applied exactly when the effective speed differs from `1.0`. -/
def ffmpegSpeedFilter (s : MusicState) : Option ℚ :=
  if effectiveSpeed s = 1 then none else some (effectiveSpeed s)

/-- One completion step under an always-succeeding driver on Discord, used
to iterate the loop-mode policy; the `getD` fallback is never exercised in
the theorems below (they prove `afterPlaying` returns `some` there). -/
def loopStep (s : MusicState) : MusicState :=
  (afterPlaying (fun _ => true) Platform.discord s).getD s

/-- The playing order visible to the user: the current track, if any,
followed by the stored queue. -/
def plist (s : MusicState) : List Nat :=
  s.current.toList ++ s.queue.getD []

/-- The spec's §3 invariant, stated over the embedding: a chat with no
stored output handle (`chat_id not in self.voice_clients`) has no current
track. -/
def outputInvariant (s : MusicState) : Prop :=
  s.voiceClient = false → s.current = none

theorem playNextAux_skip (startOk : Nat → Bool) (platform : Platform)
    (a : List Nat) (t : Nat) (r : List Nat)
    (ha : ∀ x ∈ a, startOk x = false) (ht : startOk t = true) :
    ∀ s : MusicState, playNextAux startOk platform (a ++ t :: r) s =
      { s with queue := some r, current := some t,
               voiceClient :=
                 if platform = Platform.discord then true else s.voiceClient } := by
  induction a with
  | nil =>
    intro s
    rw [List.nil_append, playNextAux.eq_def]
    cases platform <;> simp [ht]
  | cons x xs ih =>
    intro s
    have hx : startOk x = false := ha x (by simp)
    have ha' : ∀ y ∈ xs, startOk y = false := fun y hy => ha y (by simp [hy])
    rw [List.cons_append, playNextAux.eq_def]
    simp only [hx, Bool.false_eq_true, if_false]
    cases xs with
    | nil => exact ih ha' _
    | cons y ys => exact ih ha' _

theorem queue_mode_step (s : MusicState) (c : Nat) (q : List Nat)
    (hl : s.loopMode = some 2) (hc : s.current = some c)
    (hq : s.queue = some q) :
    afterPlaying (fun _ => true) Platform.discord s =
      some { s with queue := some (q ++ [c]).tail,
                    current := (q ++ [c]).head?, voiceClient := true } := by
  cases q <;>
    simp [afterPlaying, playNext, playNextAux.eq_def, hl, hc, hq]

theorem queue_mode_iter (s : MusicState) (c : Nat) (q : List Nat)
    (hl : s.loopMode = some 2) (hc : s.current = some c)
    (hq : s.queue = some q) :
    ∀ k, ∃ c' q', (loopStep^[k] s).loopMode = some 2 ∧
      (loopStep^[k] s).current = some c' ∧
      (loopStep^[k] s).queue = some q' ∧
      c' :: q' = (c :: q).rotate k := by
  intro k
  induction k with
  | zero => exact ⟨c, q, by simpa using ⟨hl, hc, hq⟩⟩
  | succ k ih =>
    obtain ⟨c', q', hl', hc', hq', hrot⟩ := ih
    have hstep := queue_mode_step (loopStep^[k] s) c' q' hl' hc' hq'
    rcases hne : q' ++ [c'] with _ | ⟨h, t⟩
    · exact absurd hne (by simp)
    · refine ⟨h, t, ?_, ?_, ?_, ?_⟩
      · rw [Function.iterate_succ_apply', loopStep, hstep]
        simp [hl']
      · rw [Function.iterate_succ_apply', loopStep, hstep]
        simp [hne]
      · rw [Function.iterate_succ_apply', loopStep, hstep]
        simp [hne]
      · have h1 : (c' :: q').rotate 1 = q' ++ [c'] := by
          simp [List.rotate_cons_succ]
        calc h :: t = q' ++ [c'] := hne.symm
          _ = (c' :: q').rotate 1 := h1.symm
          _ = ((c :: q).rotate k).rotate 1 := by rw [hrot]
          _ = (c :: q).rotate (k + 1) := by rw [List.rotate_rotate]

/-- Claim C1 (code bug): the dictionary comment (`music_handler.py` line 32,
`3-10=repeat N times`), the `# Loop N times` comment (line 201) and the
`set_loop_mode` reply `repeat {mode} times` all promise that loop mode `N`
in `[3,10]` repeats the current track and, once the counter is exhausted,
later completions simply advance.  The code decrements the counter into the
sentinel value `2`, so after `N - 2` decrements the chat silently switches
to queue-loop mode forever.  Concretely, with `loop_mode = 5`, current
track `0` and queue `[1]`: the first three completions re-play track `0`
(counter `4`, `3`, `2`), and already the fourth completion appends track
`0` to the tail and advances to track `1` with the mode stuck at `2` -
instead of the claimed five repeats with the sixth completion advancing. -/
theorem C1_repeat_mode_degrades_to_queue_loop :
    loopStep^[3] ⟨some [1], some 0, some 5, none, true⟩
      = ⟨some [1], some 0, some 2, none, true⟩ ∧
    loopStep^[4] ⟨some [1], some 0, some 5, none, true⟩
      = ⟨some [0], some 1, some 2, none, true⟩ := by
  decide

/-- Claim C2 (code bug): the dictionary comment (`music_handler.py` line 32,
`1=song`), the `# Loop current song` comment (line 195) and the
`set_loop_mode` reply `current song` promise that loop mode `1` re-plays the
same current track with no queue mutation.  The `loop_mode == 1` branch of
`after_playing` only schedules `_play_next`, which pops the queue head: with
current track `0` and queue `[1]` the completion advances to track `1`, and
with an empty queue it drops the current track and goes idle - the finished
track is never re-played. -/
theorem C2_loop_one_advances_instead_of_replaying :
    afterPlaying (fun _ => true) Platform.discord ⟨some [1], some 0, some 1, none, true⟩
      = some ⟨some [], some 1, some 1, none, true⟩ ∧
    afterPlaying (fun _ => true) Platform.discord ⟨some [], some 0, some 1, none, true⟩
      = some ⟨some [], none, some 1, none, true⟩ := by
  decide

/-- Claim C3 counterexample: with queue `[0, 1, 2]` where starting tracks
`0` and `1` both fails and starting track `2` succeeds, `_play_next` does
not stop after the second consecutive failure: it retries a third time and
ends up playing track `2`.  The `except` block (lines 145-149) recurses
while the queue is non-empty, and the surrounding `try` swallows every
error, so nothing is ever surfaced to the caller. -/
theorem C3_retry_unbounded_cex :
    playNext (fun t => t == 2) Platform.discord
      ⟨some [0, 1, 2], some 9, none, none, false⟩
      = ⟨some [], some 2, none, none, true⟩ := by
  decide

/-- Claim C3 (amended): when starting the queue head fails, `_play_next`
retries against each subsequent queued track until one starts, with no
bound; failures are logged and swallowed, never surfaced to the caller.
Formally: if the stored queue is `a ++ t :: r` where starting every track
of `a` fails and starting `t` succeeds, the chat ends up playing `t` with
queue `r` (and, on Discord, a stored voice client). -/
theorem C3_retry_until_success (startOk : Nat → Bool) (platform : Platform)
    (a : List Nat) (t : Nat) (r : List Nat) (s : MusicState)
    (ha : ∀ x ∈ a, startOk x = false) (ht : startOk t = true)
    (hq : s.queue = some (a ++ t :: r)) :
    playNext startOk platform s =
      { s with queue := some r, current := some t,
               voiceClient :=
                 if platform = Platform.discord then true else s.voiceClient } := by
  have h := playNextAux_skip startOk platform a t r ha ht s
  rw [playNext.eq_def, hq]
  exact h

/-- Claim C3 witness: the amended theorem applied to the concrete queue
`[0, 1]` where track `0` fails and track `1` succeeds. -/
theorem C3_retry_until_success_witness :
    playNext (fun t => t == 1) Platform.discord
      ⟨some [0, 1], none, none, none, false⟩
      = ⟨some [], some 1, none, none, true⟩ := by
  have h := C3_retry_until_success (fun t => t == 1) Platform.discord [0] 1 []
    ⟨some [0, 1], none, none, none, false⟩ (by decide) (by decide) rfl
  simpa using h

/-- Claim C4 counterexample: the state with queue `[0]`, no current track
and no stored voice client satisfies the invariant; running `_play_next`
when starting track `0` fails leaves `current = some 0` with still no voice
client - `_play_next` line 135 sets `current_songs[chat_id]` before
`_play_discord` line 216 would store the handle, and the failure path never
undoes it.  The invariant is not preserved. -/
theorem C4_output_invariant_cex :
    outputInvariant ⟨some [0], none, none, none, false⟩ ∧
    (playNext (fun _ => false) Platform.discord
      ⟨some [0], none, none, none, false⟩).current = some 0 ∧
    (playNext (fun _ => false) Platform.discord
      ⟨some [0], none, none, none, false⟩).voiceClient = false ∧
    ¬ outputInvariant (playNext (fun _ => false) Platform.discord
      ⟨some [0], none, none, none, false⟩) := by
  refine ⟨fun _ => rfl, rfl, rfl, fun hinv => ?_⟩
  exact absurd (hinv rfl) (by decide)

/-- Claim C4 (amended): the invariant `no stored voice client → no current
track` is not preserved in general (see the counterexample).  It does hold
for `stop_playback` unconditionally, is preserved by `shuffle_queue` and
`set_playback_speed`, and is established by `_play_next` and the
`after_playing` completion handler on the Discord path provided every
playback start succeeds; a failed start, or the Telegram path (which never
stores a voice client), breaks it. -/
theorem C4_output_invariant_discord_success (startOk : Nat → Bool)
    (hok : ∀ t, startOk t = true) (s : MusicState) :
    outputInvariant (playNext startOk Platform.discord s) ∧
    (∀ s', afterPlaying startOk Platform.discord s = some s' → outputInvariant s') ∧
    (∀ p, outputInvariant (stop_playback p s)) ∧
    (∀ perm, outputInvariant s → outputInvariant (shuffle_queue perm s).2) ∧
    (∀ v b s', outputInvariant s →
      set_playback_speed v s = some (b, s') → outputInvariant s') := by
  have hplay : ∀ u : MusicState, outputInvariant (playNext startOk Platform.discord u) := by
    intro u
    rcases hu : u.queue with _ | (_ | ⟨t, rest⟩)
    · rw [playNext.eq_def, hu]
      exact fun _ => rfl
    · rw [playNext.eq_def, hu]
      dsimp only
      rw [playNextAux.eq_def]
      exact fun _ => rfl
    · rw [playNext.eq_def, hu]
      dsimp only
      rw [playNextAux.eq_def]
      simp [hok t, outputInvariant]
  refine ⟨hplay s, ?_, ?_, ?_, ?_⟩
  · intro s' hs'
    rw [afterPlaying.eq_def] at hs'
    simp only at hs'
    split at hs'
    · cases hs'; exact hplay _
    · split at hs'
      · split at hs'
        · split at hs'
          · split at hs'
            · cases hs'; exact hplay _
            · exact Option.noConfusion hs'
          · cases hs'; exact hplay _
        · split at hs'
          · split at hs'
            · cases hs'; exact hplay _
            · exact Option.noConfusion hs'
          · cases hs'; exact hplay _
      · cases hs'; exact hplay _
  · intro p
    cases p <;> exact fun _ => rfl
  · intro perm hinv
    obtain ⟨sq, sc, sl, sp, sv⟩ := s
    rcases sq with _ | (_ | ⟨t, ts⟩) <;> exact hinv
  · intro v b s' hinv heq
    obtain ⟨sq, sc, sl, sp, sv⟩ := s
    rw [set_playback_speed.eq_def] at heq
    split at heq
    · cases heq with
      | refl => exact hinv
    · simp only at heq
      rcases sc with _ | c
      · cases heq; exact fun _ => rfl
      · rcases sq with _ | q
        · exact Option.noConfusion heq
        · cases heq
          intro hvc
          exact absurd (hinv hvc) (by simp)

/-- Claim C4 witness: the amended theorem applied to the all-successful
Discord oracle at a concrete state with an empty stored queue and no voice
client, whose advance goes idle. -/
theorem C4_output_invariant_discord_success_witness :
    (playNext (fun _ => true) Platform.discord
      ⟨some [], some 3, none, none, false⟩).current = none := by
  have h := (C4_output_invariant_discord_success (fun _ => true) (fun _ => rfl)
    ⟨some [], some 3, none, none, false⟩).1
  exact h rfl

/-- Claim C5: with `loop_mode == 2` the completion handler appends the
just-finished current track to the tail of the stored queue and then
advances into its head, so each completion rotates the list
`current :: queue` by one, the queue length is constant across completions,
and after `queue.length + 1` completions the original current track is
playing again with the original queue - the tracks cycle indefinitely.
The `afterPlaying ... |>.isSome` conjunct records that the handler never
hits the `KeyError` case on these states. -/
theorem C5_queue_loop_rotates (s : MusicState) (c : Nat) (q : List Nat)
    (hl : s.loopMode = some 2) (hc : s.current = some c)
    (hq : s.queue = some q) :
    (∀ k, (afterPlaying (fun _ => true) Platform.discord (loopStep^[k] s)).isSome = true ∧
      (loopStep^[k] s).loopMode = some 2 ∧
      plist (loopStep^[k] s) = (c :: q).rotate k ∧
      ((loopStep^[k] s).queue.getD []).length = q.length) ∧
    plist (loopStep^[q.length + 1] s) = c :: q := by
  have main : ∀ k,
      (afterPlaying (fun _ => true) Platform.discord (loopStep^[k] s)).isSome = true ∧
      (loopStep^[k] s).loopMode = some 2 ∧
      plist (loopStep^[k] s) = (c :: q).rotate k ∧
      ((loopStep^[k] s).queue.getD []).length = q.length := by
    intro k
    obtain ⟨c', q', h2, hc', hq', hrot⟩ := queue_mode_iter s c q hl hc hq k
    refine ⟨?_, h2, ?_, ?_⟩
    · rw [queue_mode_step _ c' q' h2 hc' hq']
      rfl
    · rw [← hrot]
      simp [plist, hc', hq']
    · have hlen := congrArg List.length hrot
      simp only [List.length_cons, List.length_rotate] at hlen
      simp only [hq', Option.getD_some]
      omega
  refine ⟨main, ?_⟩
  have h := (main (q.length + 1)).2.2.1
  rwa [show (c :: q).rotate (q.length + 1) = c :: q by
    conv in q.length + 1 => rw [show q.length + 1 = (c :: q).length by simp]
    exact List.rotate_length _] at h

/-- Claim C5 witness: the rotation theorem at current track `0`, queue
`[1, 2]` - after three completions (`queue.length + 1`) the original
playing order has come back around. -/
theorem C5_queue_loop_rotates_witness :
    plist (loopStep^[3] ⟨some [1, 2], some 0, some 2, none, true⟩) = [0, 1, 2] := by
  have h := (C5_queue_loop_rotates ⟨some [1, 2], some 0, some 2, none, true⟩
    0 [1, 2] rfl rfl rfl).2
  exact h

/-- Claim C6: `set_playback_speed` with a speed outside `[0.5, 2.0]`
returns `False` before any assignment (`music_handler.py` lines 412-413):
the stored speed, the current track and the queue are exactly as before. -/
theorem C6_speed_out_of_range_rejected (s : MusicState) (v : ℚ)
    (h : v < 1/2 ∨ 2 < v) :
    set_playback_speed v s = some (false, s) := by
  rw [set_playback_speed.eq_def, if_pos h]

/-- Claim C6 witness: the spec's own example `speed = 3.0` is rejected and
the whole state is returned untouched. -/
theorem C6_speed_out_of_range_rejected_witness :
    set_playback_speed 3 ⟨some [4], some 7, some 2, some 1, true⟩
      = some (false, ⟨some [4], some 7, some 2, some 1, true⟩) :=
  C6_speed_out_of_range_rejected ⟨some [4], some 7, some 2, some 1, true⟩ 3
    (Or.inr (by norm_num))

/-- Claim C7: a stale `after_playing` completion firing after
`stop_playback` has cleared the chat is a no-op: the popped loop mode reads
as `0`, `_play_next` finds no stored queue and leaves `current` absent, so
the stopped state is returned unchanged - nothing is resurrected and
nothing is queued. -/
theorem C7_stale_completion_after_stop_noop (startOk : Nat → Bool)
    (p p' : Platform) (s : MusicState) :
    afterPlaying startOk p (stop_playback p' s) = some (stop_playback p' s) := by
  cases p' <;> rfl

/-- Claim C8: `shuffle_queue` on an absent or empty queue returns `False`
and changes nothing; on a non-empty queue it returns `True`, replaces the
queue by the permutation `random.shuffle` picked, and leaves the current
track, speed, loop mode and voice client untouched. -/
theorem C8_shuffle_empty_fails_nonempty_permutes (perm : List Nat → List Nat)
    (hperm : ∀ l, (perm l).Perm l) (s : MusicState) :
    ((s.queue.getD []).isEmpty = true → shuffle_queue perm s = (false, s)) ∧
    (∀ t ts, s.queue = some (t :: ts) →
      (shuffle_queue perm s).1 = true ∧
      (shuffle_queue perm s).2.current = s.current ∧
      (shuffle_queue perm s).2.speed = s.speed ∧
      (shuffle_queue perm s).2.loopMode = s.loopMode ∧
      (shuffle_queue perm s).2.voiceClient = s.voiceClient ∧
      ∃ q', (shuffle_queue perm s).2.queue = some q' ∧ q'.Perm (t :: ts)) := by
  obtain ⟨sq, sc, sl, sp, sv⟩ := s
  constructor
  · rcases sq with _ | (_ | ⟨t, ts⟩) <;> intro h
    · rfl
    · rfl
    · exact absurd h (by simp)
  · intro t ts hq
    have hq' : sq = some (t :: ts) := hq
    subst hq'
    exact ⟨rfl, rfl, rfl, rfl, rfl, perm (t :: ts), rfl, hperm (t :: ts)⟩

/-- Claim C8 witness: the theorem at the length-reversing permutation, on
an empty queue (failure, untouched state) and on the queue `[1, 2]`
(success, current still `5`). -/
theorem C8_shuffle_witness :
    shuffle_queue List.reverse ⟨some [], some 5, none, none, false⟩
      = (false, ⟨some [], some 5, none, none, false⟩) ∧
    (shuffle_queue List.reverse ⟨some [1, 2], some 5, none, none, false⟩).1 = true ∧
    (shuffle_queue List.reverse ⟨some [1, 2], some 5, none, none, false⟩).2.current
      = some 5 := by
  refine ⟨?_, ?_, ?_⟩
  · exact (C8_shuffle_empty_fails_nonempty_permutes List.reverse
      (fun l => l.reverse_perm) ⟨some [], some 5, none, none, false⟩).1 rfl
  · exact ((C8_shuffle_empty_fails_nonempty_permutes List.reverse
      (fun l => l.reverse_perm) ⟨some [1, 2], some 5, none, none, false⟩).2 1 [2] rfl).1
  · exact ((C8_shuffle_empty_fails_nonempty_permutes List.reverse
      (fun l => l.reverse_perm) ⟨some [1, 2], some 5, none, none, false⟩).2 1 [2] rfl).2.1

/-- Claim C9 counterexample: an idle chat in the claim's sense (no current
track, no queued tracks, no voice client) can still hold a stored loop mode
(set by `set_loop_mode`, which works while idle); `stop_playback` pops that
entry, so the state is not unchanged. -/
theorem C9_idle_stop_not_noop_cex :
    stop_playback Platform.discord ⟨none, none, some 2, none, false⟩
      ≠ ⟨none, none, some 2, none, false⟩ := by
  decide

/-- Claim C9 (amended): `stop_playback` never raises (every dictionary
access uses a popping default), and on a fully idle chat - no current
track, no stored queue entry, no stored loop mode, no voice client - it
returns the state exactly unchanged (in particular the stored speed is
kept); if a loop mode is stored it is additionally cleared, the chat
remaining idle. -/
theorem C9_idle_stop_noop (p : Platform) (s : MusicState)
    (hq : s.queue = none) (hc : s.current = none) (hl : s.loopMode = none)
    (hv : s.voiceClient = false) :
    stop_playback p s = s := by
  obtain ⟨sq, sc, sl, sp, sv⟩ := s
  have h1 : sq = none := hq
  have h2 : sc = none := hc
  have h3 : sl = none := hl
  have h4 : sv = false := hv
  subst h1; subst h2; subst h3; subst h4
  cases p <;> rfl

/-- Claim C9 witness: the amended theorem at a concrete fully idle state
carrying only a stored playback speed. -/
theorem C9_idle_stop_noop_witness :
    stop_playback Platform.telegram ⟨none, none, none, some (3/2), false⟩
      = ⟨none, none, none, some (3/2), false⟩ :=
  C9_idle_stop_noop Platform.telegram ⟨none, none, none, some (3/2), false⟩
    rfl rfl rfl rfl

/-- Claim C10: `stop_playback` pops the chat's queue, current track and
loop mode but not its `playback_speeds` entry, so after a valid
`set_playback_speed v` (taken here on an idle chat) followed by `stop`, the
stored speed is still `v`; `_play_discord` reads
`self.playback_speeds.get(chat_id, 1.0)` and, for `v ≠ 1`, appends the
`atempo` filter at `v` - a later play starts at the previously set speed,
not the default `1.0`. -/
theorem C10_stop_preserves_speed (p : Platform) (s : MusicState) (v : ℚ)
    (h1 : 1/2 ≤ v) (h2 : v ≤ 2) (hv1 : v ≠ 1) (hc : s.current = none) :
    (stop_playback p s).speed = s.speed ∧
    set_playback_speed v s = some (true, { s with speed := some v }) ∧
    (stop_playback p { s with speed := some v }).queue = none ∧
    (stop_playback p { s with speed := some v }).current = none ∧
    (stop_playback p { s with speed := some v }).loopMode = none ∧
    (stop_playback p { s with speed := some v }).speed = some v ∧
    effectiveSpeed (stop_playback p { s with speed := some v }) = v ∧
    ffmpegSpeedFilter (stop_playback p { s with speed := some v }) = some v := by
  have hnot : ¬ (v < 1/2 ∨ 2 < v) := by
    push_neg
    exact ⟨h1, h2⟩
  obtain ⟨sq, sc, sl, sp, sv⟩ := s
  have hc' : sc = none := hc
  subst hc'
  refine ⟨?_, ?_, ?_, ?_, ?_, ?_, ?_, ?_⟩
  · cases p <;> rfl
  · rw [set_playback_speed.eq_def, if_neg hnot]
  · cases p <;> rfl
  · cases p <;> rfl
  · cases p <;> rfl
  · cases p <;> rfl
  · cases p <;> simp [effectiveSpeed, stop_playback]
  · cases p <;> simp [ffmpegSpeedFilter, effectiveSpeed, stop_playback, hv1]

/-- Claim C10 witness: speed `3/2` set on an idle chat survives a stop on
Discord and would be fed to the `atempo` filter. -/
theorem C10_stop_preserves_speed_witness :
    set_playback_speed (3/2) ⟨none, none, none, none, false⟩
      = some (true, ⟨none, none, none, some (3/2), false⟩) ∧
    ffmpegSpeedFilter (stop_playback Platform.discord
      ⟨none, none, none, some (3/2), false⟩) = some (3/2) := by
  have h := C10_stop_preserves_speed Platform.discord ⟨none, none, none, none, false⟩
    (3/2) (by norm_num) (by norm_num) (by norm_num) rfl
  exact ⟨h.2.1, h.2.2.2.2.2.2.2⟩
